import Mathlib

/-!
Shallow embedding of the brunotm/log structured-logging package.

Bytes are modelled as `Nat` (Go `byte` values, always < 256 where produced),
byte buffers and Go strings as `List Nat`.  The embedding follows the current
generation of the source: `encoder.go` (encoder with `checkComma`, `addKey`,
`writeString`, typed appenders), the `Object`/`Entry` facade, and the
`Logger.entry` pipeline.  External collaborators (`time.Now`, `runtime.Caller`,
the sink) are passed in as explicit parameters, mirroring the spec's
"opaque collaborator" treatment.
-/

namespace Log

/-- Go `Format` is a uint32; `FormatJSON = 1`. -/
def FormatJSON : Nat := 1

/-- Go `FormatText = 2`. -/
def FormatText : Nat := 2

/-- Log levels, Go `Level` uint32 values. -/
def DEBUG : Nat := 1

def INFO : Nat := 2

def WARN : Nat := 3

def ERROR : Nat := 4

def FATAL : Nat := 5

/-- `Level.String()` from the level source file, as bytes. -/
def levelString : Nat → List Nat
  | 1 => [100, 101, 98, 117, 103]            -- "debug"
  | 2 => [105, 110, 102, 111]                -- "info"
  | 3 => [119, 97, 114, 110]                 -- "warn"
  | 4 => [101, 114, 114, 111, 114]           -- "error"
  | 5 => [102, 97, 116, 97, 108]             -- "fatal"
  | _ => [117, 110, 107, 110, 111, 119, 110] -- "unknown"

/-- `encoder` from encoder.go: format mode plus growable byte buffer. -/
structure Encoder where
  format : Nat
  data : List Nat
deriving DecidableEq, Repr

/-- `encoder.checkComma` from encoder.go lines 32-56: separator state machine.
`e.data[len(e.data)-1]` is modelled by `getLastD` under the length guard. -/
def checkComma (e : Encoder) : Encoder :=
  if 0 < e.data.length then
    if e.format = FormatJSON then
      if e.data.getLastD 0 = 123 ∨ e.data.getLastD 0 = 91 ∨ e.data.getLastD 0 = 58 then
        e  -- last byte one of { [ :  → no separator
      else
        { e with data := e.data ++ [44, 32] }  -- ", "
    else
      if e.data.getLastD 0 = 61 ∨ e.data.getLastD 0 = 91 ∨ e.data.getLastD 0 = 123 then
        e  -- last byte one of = [ {  → no separator
      else
        { e with data := e.data ++ [32] }  -- " "
  else
    if e.format = FormatJSON then
      { e with data := e.data ++ [123] }  -- openObject
    else
      e

/-- `encoder.openObject`. -/
def openObject (e : Encoder) : Encoder :=
  { e with data := e.data ++ [123] }

/-- `encoder.closeObject`. -/
def closeObject (e : Encoder) : Encoder :=
  { e with data := e.data ++ [125] }

/-- `hex[n]` for the "0123456789abcdef" table in encoder.go. -/
def hexChar (n : Nat) : Nat :=
  if n < 10 then 48 + n else 97 + (n - 10)

/-- The escape sequence `encoder.writeString` emits for one input byte
(encoder.go lines 113-137).  Note the source appends the raw control byte
after the backslash (`'\\', '\n'` etc.), and `[92, 34]` for both `"` and `\`. -/
def escapeByte (c : Nat) : List Nat :=
  if 0x20 ≤ c ∧ c ≠ 92 ∧ c ≠ 34 then [c]
  else if c = 34 ∨ c = 92 then [92, 34]
  else if c = 10 then [92, 10]
  else if c = 12 then [92, 12]
  else if c = 8 then [92, 8]
  else if c = 13 then [92, 13]
  else if c = 9 then [92, 9]
  else [92, 117, 48, 48] ++ [hexChar (c / 16), hexChar (c % 16)]

/-- `encoder.writeString` from encoder.go lines 110-140: opening quote, the
per-byte loop, closing quote. -/
def writeString (e : Encoder) (s : List Nat) : Encoder :=
  { e with data := e.data ++ [34] ++ (s.map escapeByte).flatten ++ [34] }

/-- Decimal digits, fuelled so the kernel can evaluate; the fuel `n + 1`
always suffices since `n / 10 < n` for `n ≥ 10`. -/
def natDigitsGo : Nat → Nat → List Nat
  | 0, _ => []
  | fuel + 1, n => if n < 10 then [48 + n] else natDigitsGo fuel (n / 10) ++ [48 + n % 10]

/-- Decimal digits of a natural number, as `strconv` emits them. -/
def natDigits (n : Nat) : List Nat :=
  natDigitsGo (n + 1) n

/-- `strconv.AppendInt(.., value, 10)`: minus sign then decimal digits. -/
def intBytes (i : Int) : List Nat :=
  if i < 0 then 45 :: natDigits (-i).toNat else natDigits i.toNat

/-- `"true"` / `"false"` as emitted by `strconv.AppendBool`. -/
def boolBytes (b : Bool) : List Nat :=
  if b then [116, 114, 117, 101] else [102, 97, 108, 115, 101]

/-- `nullBytes` from the Object source file. -/
def nullBytes : List Nat := [110, 117, 108, 108]

/-- `encoder.AppendString`. -/
def AppendString (e : Encoder) (value : List Nat) : Encoder :=
  writeString (checkComma e) value

/-- `encoder.AppendInt64`. -/
def AppendInt64 (e : Encoder) (value : Int) : Encoder :=
  let e := checkComma e
  { e with data := e.data ++ intBytes value }

/-- `encoder.AppendBool`. -/
def AppendBool (e : Encoder) (value : Bool) : Encoder :=
  let e := checkComma e
  { e with data := e.data ++ boolBytes value }

/-- `encoder.AppendBytes`. -/
def AppendBytes (e : Encoder) (value : List Nat) : Encoder :=
  let e := checkComma e
  { e with data := e.data ++ value }

/-- `encoder.addKey` from encoder.go lines 142-153. -/
def addKey (e : Encoder) (key : List Nat) : Encoder :=
  let e := checkComma e
  if e.format = FormatJSON then
    { e with data := e.data ++ [34] ++ key ++ [34, 58] }
  else
    { e with data := e.data ++ key ++ [61] }

/-- `Object.String`: the Object facade wraps the encoder without nil checks,
so its methods are modelled as functions on `Encoder`. -/
def objString (enc : Encoder) (key value : List Nat) : Encoder :=
  AppendString (addKey enc key) value

/-- `Object.Int64`. -/
def objInt64 (enc : Encoder) (key : List Nat) (value : Int) : Encoder :=
  AppendInt64 (addKey enc key) value

/-- `Object.Bool`. -/
def objBool (enc : Encoder) (key : List Nat) (value : Bool) : Encoder :=
  AppendBool (addKey enc key) value

/-- `Object.Null`. -/
def objNull (enc : Encoder) (key : List Nat) : Encoder :=
  AppendBytes (addKey enc key) nullBytes

/-- `Object.Error`: a Go `error` is `Option (List Nat)` — `none` for nil,
`some msg` for a non-nil error whose `Error()` returns `msg`. -/
def objError (enc : Encoder) (key : List Nat) (err : Option (List Nat)) : Encoder :=
  match err with
  | none => objNull enc key
  | some msg => objString enc key msg

/-- `Entry`: the chainable record handle. `enc = none` models the nil encoder
pointer of a gated or sampled-out entry. -/
structure Entry where
  enc : Option Encoder
  level : Nat

/-- `Entry.String`: nil-safe, delegates to the Object facade. -/
def entryString (e : Entry) (key value : List Nat) : Entry :=
  match e.enc with
  | some enc => { e with enc := some (objString enc key value) }
  | none => e

/-- `Entry.Int64` (and the smaller int setters that delegate to it). -/
def entryInt64 (e : Entry) (key : List Nat) (value : Int) : Entry :=
  match e.enc with
  | some enc => { e with enc := some (objInt64 enc key value) }
  | none => e

/-- `Entry.Bool`. -/
def entryBool (e : Entry) (key : List Nat) (value : Bool) : Entry :=
  match e.enc with
  | some enc => { e with enc := some (objBool enc key value) }
  | none => e

/-- `Entry.Null`. -/
def entryNull (e : Entry) (key : List Nat) : Entry :=
  match e.enc with
  | some enc => { e with enc := some (objNull enc key) }
  | none => e

/-- `Entry.Error`. -/
def entryError (e : Entry) (key : List Nat) (err : Option (List Nat)) : Entry :=
  match e.enc with
  | some enc => { e with enc := some (objError enc key err) }
  | none => e

/-- `Entry.Bytes` is `return e.o.enc.data` with no nil check: on an entry whose
encoder is absent the Go code dereferences a nil pointer and panics.  The
panic is modelled as `none`; `some` is the data an active entry returns. -/
def entryBytes (e : Entry) : Option (List Nat) :=
  match e.enc with
  | some enc => some enc.data
  | none => none

/-- `"unix"` — the `Unix` time-format tag. -/
def unixFmt : List Nat := [117, 110, 105, 120]

/-- `"unix_milli"`. -/
def unixMilliFmt : List Nat := [117, 110, 105, 120, 95, 109, 105, 108, 108, 105]

/-- `"unix_nano"`. -/
def unixNanoFmt : List Nat := [117, 110, 105, 120, 95, 110, 97, 110, 111]

/-- The slice of `time.Time` the entry initializer consumes: `Unix()`,
`UnixNano()`, and the bytes `AppendFormat` renders for the configured layout. -/
structure GoTime where
  unix : Int
  unixNano : Int
  formatted : List Nat

/-- `Config` from the logger source file (sampling knobs live in the sampler
model). -/
structure Config where
  format : Nat
  level : Nat
  enableCaller : Bool
  callerSkip : Nat
  enableTime : Bool
  timeField : List Nat
  timeFormat : List Nat
  messageField : List Nat
  levelField : List Nat
  enableSampling : Bool

/-- `"caller"`. -/
def callerKey : List Nat := [99, 97, 108, 108, 101, 114]

/-- `Entry.init` from entry.go lines 345-381, acting on the (non-nil) encoder.
`t` stands for `time.Now()`; `caller` for the `runtime.Caller` resolution
(`none` = not ok, written as `"???"`).  Note the source writes the time field
BEFORE the level field. -/
def encInit (enc : Encoder) (cfg : Config) (t : GoTime) (caller : Option (List Nat))
    (level : Nat) : Encoder :=
  let enc :=
    if cfg.enableTime then
      let enc := addKey enc cfg.timeField
      if cfg.timeFormat = unixFmt then AppendInt64 enc t.unix
      else if cfg.timeFormat = unixMilliFmt then AppendInt64 enc (t.unixNano / 1000000)
      else if cfg.timeFormat = unixNanoFmt then AppendInt64 enc t.unixNano
      else { enc with data := enc.data ++ [34] ++ t.formatted ++ [34] }
    else enc
  let enc := objString enc cfg.levelField (levelString level)
  if cfg.enableCaller then
    match caller with
    | some c => objString enc callerKey c
    | none => objString enc callerKey [63, 63, 63]  -- "???"
  else enc

/-- `Logger`: config plus the registered "with" callbacks. -/
structure Logger where
  config : Config
  withs : List (Entry → Entry)

/-- `Logger.entry` from the logger source lines 161-185.  `sampleOK` stands for
the `l.sampler.check(level, message)` result (only consulted when sampling is
enabled, as in the Go short-circuit).  A fresh pooled encoder has empty data. -/
def loggerEntry (l : Logger) (sampleOK : Bool) (t : GoTime) (caller : Option (List Nat))
    (level : Nat) (message : List Nat) : Entry :=
  let entry : Entry := { enc := none, level := level }
  if l.config.level ≤ level then
    if l.config.enableSampling && !sampleOK then entry
    else
      let enc : Encoder := { format := l.config.format, data := [] }
      let e : Entry := { enc := some (encInit enc l.config t caller level), level := level }
      let e := l.withs.foldl (fun acc f => f acc) e
      entryString e l.config.messageField message
  else entry

/-- The finalized buffer `Entry.Write` produces before the sink write: the
root object is closed in JSON mode only; `none` when the entry is inert. -/
def entryFinalize (e : Entry) : Option (List Nat) :=
  match e.enc with
  | some enc => some (if enc.format = FormatJSON then (closeObject enc).data else enc.data)
  | none => none

/-- `Entry.Write` → `Logger.write`: the bytes handed to the sink (buffer plus
newline), or `none` when nothing is written (inert entry). -/
def entryWrite (e : Entry) : Option (List Nat) :=
  (entryFinalize e).map (fun d => d ++ [10])

/-- Modelled from the spec: the sampler implementation (`newSampler` and
`sampler.check`) is not among the source files — only its callers in the
logger are.  Per spec §4.3, each (level, message) signature owns a bucket
`{windowStart, count}`. -/
structure SamplerBucket where
  windowStart : Nat
  count : Nat

/-- Modelled from the spec: the admission rule at occurrence count `c` —
allow when `count ≤ start`, otherwise when `(count − start) mod factor == 0`. -/
def samplerAllowed (start factor c : Nat) : Bool :=
  if c ≤ start then true else decide ((c - start) % factor = 0)

/-- Modelled from the spec: one `sampler.check` decision for a signature's
bucket — reset the bucket when the window expired (`now − windowStart ≥
tick`), increment the count, then decide via `samplerAllowed`. -/
def samplerCheck (tick start factor : Nat) (now : Nat) (b : SamplerBucket) :
    Bool × SamplerBucket :=
  let b := if tick ≤ now - b.windowStart then { windowStart := now, count := 0 } else b
  let c := b.count + 1
  (samplerAllowed start factor c, { b with count := c })

/-- Number of records accepted among `M` submissions of one signature, all at
time `now`, starting from bucket `b`. -/
def samplerAccepted (tick start factor now : Nat) : Nat → SamplerBucket → Nat
  | 0, _ => 0
  | m + 1, b =>
    let r := samplerCheck tick start factor now b
    (if r.1 then 1 else 0) + samplerAccepted tick start factor now m r.2

/-- A burst of `M` identical-signature records within one tick, starting from
the lazily-created bucket of a first-seen signature. -/
def samplerBurst (tick start factor now M : Nat) : Nat :=
  samplerAccepted tick start factor now M { windowStart := now, count := 0 }

/-! ### Derived notions used in the statements -/

/-- A scalar field value, as the Entry facade can append one. -/
inductive FieldVal where
  | vstr (s : List Nat)
  | vint (i : Int)
  | vbool (b : Bool)
  | vnull
deriving DecidableEq, Repr

/-- The bytes the matching encoder appender emits for a value (after the
separator logic has run). -/
def valBytes : FieldVal → List Nat
  | .vstr s => [34] ++ (s.map escapeByte).flatten ++ [34]
  | .vint i => intBytes i
  | .vbool b => boolBytes b
  | .vnull => nullBytes

/-- Dispatch to the typed appender, as the Entry facade does. -/
def appendVal (e : Encoder) : FieldVal → Encoder
  | .vstr s => AppendString e s
  | .vint i => AppendInt64 e i
  | .vbool b => AppendBool e b
  | .vnull => AppendBytes e nullBytes

/-- One field write: `addKey` then one value append. -/
def applyField (e : Encoder) (f : List Nat × FieldVal) : Encoder :=
  appendVal (addKey e f.1) f.2

/-- The JSON token a field write contributes: `"key":value`. -/
def fieldToken (f : List Nat × FieldVal) : List Nat :=
  [34] ++ f.1 ++ [34, 58] ++ valBytes f.2

/-- A "with" callback that adds one string field, the shape used to state the
registration-order property. -/
def withStringField (p : List Nat × List Nat) : Entry → Entry :=
  fun e => entryString e p.1 p.2

/-- The closed-form cumulative count of accepted records among the first `n`
occurrences of a signature within one tick. -/
def samplerCum (start factor n : Nat) : Nat :=
  if n ≤ start then n else start + (n - start) / factor

/-- Hexadecimal digit value, for the JSON unescaper. -/
def hexVal (c : Nat) : Option Nat :=
  if 48 ≤ c ∧ c ≤ 57 then some (c - 48)
  else if 97 ≤ c ∧ c ≤ 102 then some (c - 87)
  else if 65 ≤ c ∧ c ≤ 70 then some (c - 55)
  else none

/-- UTF-8 encoding of a code point below 0x10000, for the JSON unescaper. -/
def utf8Encode (n : Nat) : List Nat :=
  if n < 0x80 then [n]
  else if n < 0x800 then [192 + n / 64, 128 + n % 64]
  else [224 + n / 4096, 128 + (n / 64) % 64, 128 + n % 64]

/-- Modelled from the spec: body of the standard JSON string-unescape, applied
after the opening quote.  Escapes `\" \\ \/ \b \f \n \r \t` map to their
code points, `\uXXXX` decodes four hex digits (UTF-8 encoded), an unescaped
quote must close the token with nothing following, raw control bytes below
0x20 and unknown escapes are invalid. -/
def jsonUnescapeAux : List Nat → Option (List Nat)
  | [] => none
  | 34 :: rest => if rest = [] then some [] else none
  | 92 :: 117 :: h1 :: h2 :: h3 :: h4 :: rest =>
    match hexVal h1, hexVal h2, hexVal h3, hexVal h4 with
    | some a, some b, some c, some d =>
      (jsonUnescapeAux rest).map
        (fun t => utf8Encode (((a * 16 + b) * 16 + c) * 16 + d) ++ t)
    | _, _, _, _ => none
  | 92 :: c :: rest =>
    match (if c = 34 then some 34 else if c = 92 then some 92
           else if c = 47 then some 47 else if c = 98 then some 8
           else if c = 102 then some 12 else if c = 110 then some 10
           else if c = 114 then some 13 else if c = 116 then some 9
           else none : Option Nat) with
    | some b => (jsonUnescapeAux rest).map (fun t => b :: t)
    | none => none
  | c :: rest =>
    if c < 32 then none
    else (jsonUnescapeAux rest).map (fun t => c :: t)

/-- Modelled from the spec: the standard JSON string-unescape of a whole
string token (opening quote, body, closing quote). -/
def jsonUnescape : List Nat → Option (List Nat)
  | 34 :: rest => jsonUnescapeAux rest
  | _ => none

/-- The spec's concrete-scenario config: gate level DEBUG, time and caller
disabled, sampling disabled, default field names. -/
def cfgScenario (format : Nat) : Config :=
  { format := format, level := DEBUG, enableCaller := false, callerSkip := 0,
    enableTime := false, timeField := [116, 105, 109, 101],
    timeFormat := [], messageField := [109, 101, 115, 115, 97, 103, 101],
    levelField := [108, 101, 118, 101, 108], enableSampling := false }

/-- The scenario config with timestamps enabled in Unix-seconds encoding. -/
def cfgTimed : Config :=
  { cfgScenario FormatJSON with enableTime := true, timeFormat := unixFmt }

/-- A JSON config gating nothing (level 0), with time (Unix encoding) and
caller enabled, for the field-order property. -/
def cfgInitOrder (tf lf mf : List Nat) : Config :=
  { format := FormatJSON, level := 0, enableCaller := true, callerSkip := 0,
    enableTime := true, timeField := tf, timeFormat := unixFmt,
    messageField := mf, levelField := lf, enableSampling := false }

/-! ### Helper lemmas -/

theorem getLastD_suffix (d : List Nat) {l : List Nat} (x : Nat) (h : l ≠ []) :
    (d ++ l).getLastD x = l.getLastD x := by
  match l, h with
  | a :: l, _ =>
    rw [List.getLastD_eq_getLast?, List.getLastD_eq_getLast?, List.getLast?_append_cons]

theorem checkComma_format (e : Encoder) : (checkComma e).format = e.format := by
  unfold checkComma
  repeat' split
  all_goals rfl

theorem checkComma_empty_json (e : Encoder) (hf : e.format = FormatJSON)
    (hd : e.data = []) : checkComma e = { e with data := [123] } := by
  unfold checkComma
  rw [if_neg (by simp [hd]), if_pos hf]
  simp [hd]

theorem checkComma_skip_json (e : Encoder) (hf : e.format = FormatJSON)
    (hne : e.data ≠ [])
    (hb : e.data.getLastD 0 = 123 ∨ e.data.getLastD 0 = 91 ∨ e.data.getLastD 0 = 58) :
    checkComma e = e := by
  unfold checkComma
  rw [if_pos (List.length_pos.mpr hne), if_pos hf, if_pos hb]

theorem checkComma_sep_json (e : Encoder) (hf : e.format = FormatJSON)
    (hne : e.data ≠ [])
    (hb : ¬(e.data.getLastD 0 = 123 ∨ e.data.getLastD 0 = 91 ∨ e.data.getLastD 0 = 58)) :
    checkComma e = { e with data := e.data ++ [44, 32] } := by
  unfold checkComma
  rw [if_pos (List.length_pos.mpr hne), if_pos hf, if_neg hb]

theorem checkComma_skip_text (e : Encoder) (hf : e.format ≠ FormatJSON)
    (hne : e.data ≠ [])
    (hb : e.data.getLastD 0 = 61 ∨ e.data.getLastD 0 = 91 ∨ e.data.getLastD 0 = 123) :
    checkComma e = e := by
  unfold checkComma
  rw [if_pos (List.length_pos.mpr hne), if_neg hf, if_pos hb]

theorem addKey_json (e : Encoder) (k : List Nat) (hf : e.format = FormatJSON) :
    addKey e k = { checkComma e with data := (checkComma e).data ++ [34] ++ k ++ [34, 58] } := by
  unfold addKey
  rw [if_pos (by rw [checkComma_format, hf])]

theorem addKey_text (e : Encoder) (k : List Nat) (hf : e.format ≠ FormatJSON) :
    addKey e k = { checkComma e with data := (checkComma e).data ++ k ++ [61] } := by
  unfold addKey
  rw [if_neg (by rw [checkComma_format]; exact hf)]

theorem checkComma_addKey (e : Encoder) (k : List Nat) :
    checkComma (addKey e k) = addKey e k := by
  by_cases hf : e.format = FormatJSON
  · rw [addKey_json e k hf]
    apply checkComma_skip_json
    · simpa [checkComma_format] using hf
    · simp
    · right; right
      have h1 : (checkComma e).data ++ [34] ++ k ++ [34, 58]
          = (checkComma e).data ++ (34 :: (k ++ [34, 58])) := by
        simp
      rw [h1, getLastD_suffix _ _ (by simp), List.getLastD_cons,
        getLastD_suffix _ _ (by simp)]
      rfl
  · rw [addKey_text e k hf]
    apply checkComma_skip_text
    · simpa [checkComma_format] using hf
    · simp
    · left
      have h1 : (checkComma e).data ++ k ++ [61]
          = ((checkComma e).data ++ k) ++ [61] := by
        simp
      rw [h1, List.getLastD_concat]

theorem natDigitsGo_spec (fuel n x : Nat) (h : n < fuel) :
    (natDigitsGo fuel n).getLastD x = 48 + n % 10 ∧ natDigitsGo fuel n ≠ [] := by
  match fuel, h with
  | fuel + 1, _ =>
    unfold natDigitsGo
    split
    · next h10 => rw [Nat.mod_eq_of_lt h10]; exact ⟨rfl, by simp⟩
    · rw [List.getLastD_concat]; exact ⟨rfl, by simp⟩

theorem natDigits_ne_nil (n : Nat) : natDigits n ≠ [] :=
  (natDigitsGo_spec (n + 1) n 0 (Nat.lt_succ_self n)).2

theorem natDigits_getLastD (n x : Nat) : (natDigits n).getLastD x = 48 + n % 10 :=
  (natDigitsGo_spec (n + 1) n x (Nat.lt_succ_self n)).1

theorem valBytes_ne_nil (v : FieldVal) : valBytes v ≠ [] := by
  cases v with
  | vstr s => simp [valBytes]
  | vint i =>
    simp only [valBytes, intBytes]
    split
    · simp
    · exact natDigits_ne_nil _
  | vbool b => cases b <;> simp [valBytes, boolBytes]
  | vnull => simp [valBytes, nullBytes]

theorem valBytes_last_ok (v : FieldVal) (x : Nat) :
    ¬((valBytes v).getLastD x = 123 ∨ (valBytes v).getLastD x = 91 ∨
      (valBytes v).getLastD x = 58) := by
  cases v with
  | vstr s =>
    have h1 : valBytes (.vstr s) = ([34] ++ (s.map escapeByte).flatten) ++ [34] := by
      simp [valBytes]
    rw [h1, List.getLastD_concat]
    decide
  | vint i =>
    simp only [valBytes, intBytes]
    split
    · rw [List.getLastD_cons, natDigits_getLastD]
      omega
    · rw [natDigits_getLastD]
      omega
  | vbool b => cases b <;> simp [valBytes, boolBytes]
  | vnull => simp [valBytes, nullBytes]

theorem appendVal_of_skip (e : Encoder) (v : FieldVal) (h : checkComma e = e) :
    appendVal e v = { e with data := e.data ++ valBytes v } := by
  cases v with
  | vstr s => simp [appendVal, AppendString, writeString, h, valBytes]
  | vint i => simp [appendVal, AppendInt64, h, valBytes]
  | vbool b => simp [appendVal, AppendBool, h, valBytes]
  | vnull => simp [appendVal, AppendBytes, h, valBytes]

theorem applyField_colon_last (d k : List Nat) (x : Nat) :
    (d ++ [34] ++ k ++ [34, 58]).getLastD x = 58 := by
  have h1 : d ++ [34] ++ k ++ [34, 58] = d ++ (34 :: (k ++ [34, 58])) := by simp
  rw [h1, getLastD_suffix _ _ (by simp), List.getLastD_cons,
    getLastD_suffix _ _ (by simp)]
  rfl

theorem applyField_start (f : List Nat × FieldVal) :
    applyField ⟨FormatJSON, []⟩ f = ⟨FormatJSON, [123] ++ fieldToken f⟩ := by
  have hA : addKey ⟨FormatJSON, []⟩ f.1 = ⟨FormatJSON, [123, 34] ++ f.1 ++ [34, 58]⟩ := by
    rw [addKey_json _ _ rfl, checkComma_empty_json _ rfl rfl]
    simp
  have hskip : checkComma (⟨FormatJSON, [123, 34] ++ f.1 ++ [34, 58]⟩ : Encoder)
      = ⟨FormatJSON, [123, 34] ++ f.1 ++ [34, 58]⟩ := by
    apply checkComma_skip_json _ rfl (by simp)
    right; right
    have h1 : ([123, 34] ++ f.1 ++ [34, 58] : List Nat)
        = [123] ++ [34] ++ f.1 ++ [34, 58] := by simp
    rw [h1]
    exact applyField_colon_last [123] f.1 0
  unfold applyField
  rw [hA, appendVal_of_skip _ _ hskip]
  simp [fieldToken]

theorem applyField_step (e : Encoder) (f : List Nat × FieldVal)
    (hf : e.format = FormatJSON) (hne : e.data ≠ [])
    (hok : ¬(e.data.getLastD 0 = 123 ∨ e.data.getLastD 0 = 91 ∨ e.data.getLastD 0 = 58)) :
    applyField e f = ⟨FormatJSON, e.data ++ [44, 32] ++ fieldToken f⟩ := by
  obtain ⟨fm, d⟩ := e
  have hfm : fm = FormatJSON := hf
  subst hfm
  have hA : addKey ⟨FormatJSON, d⟩ f.1
      = ⟨FormatJSON, d ++ [44, 32] ++ [34] ++ f.1 ++ [34, 58]⟩ := by
    rw [addKey_json _ _ rfl, checkComma_sep_json _ rfl hne hok]
  have hskip : checkComma (⟨FormatJSON, d ++ [44, 32] ++ [34] ++ f.1 ++ [34, 58]⟩ : Encoder)
      = ⟨FormatJSON, d ++ [44, 32] ++ [34] ++ f.1 ++ [34, 58]⟩ := by
    apply checkComma_skip_json _ rfl (by simp)
    right; right
    have h1 : (d ++ [44, 32] ++ [34] ++ f.1 ++ [34, 58] : List Nat)
        = (d ++ [44, 32]) ++ [34] ++ f.1 ++ [34, 58] := by simp
    rw [h1]
    exact applyField_colon_last (d ++ [44, 32]) f.1 0
  unfold applyField
  rw [hA, appendVal_of_skip _ _ hskip]
  simp [fieldToken]

theorem fieldToken_last_ok (d : List Nat) (f : List Nat × FieldVal) (x : Nat) :
    ¬((d ++ fieldToken f).getLastD x = 123 ∨ (d ++ fieldToken f).getLastD x = 91 ∨
      (d ++ fieldToken f).getLastD x = 58) := by
  have h1 : d ++ fieldToken f = (d ++ [34] ++ f.1 ++ [34, 58]) ++ valBytes f.2 := by
    simp [fieldToken]
  rw [h1, getLastD_suffix _ _ (valBytes_ne_nil f.2)]
  exact valBytes_last_ok f.2 x

theorem foldl_applyField (fs : List (List Nat × FieldVal)) (e : Encoder)
    (hf : e.format = FormatJSON) (hne : e.data ≠ [])
    (hok : ¬(e.data.getLastD 0 = 123 ∨ e.data.getLastD 0 = 91 ∨ e.data.getLastD 0 = 58)) :
    fs.foldl applyField e
      = ⟨FormatJSON, e.data ++ (fs.map (fun f => [44, 32] ++ fieldToken f)).flatten⟩ := by
  induction fs generalizing e with
  | nil =>
    obtain ⟨fm, d⟩ := e
    have hfm : fm = FormatJSON := hf
    subst hfm
    simp
  | cons f fs ih =>
    rw [List.foldl_cons, applyField_step e f hf hne hok]
    rw [ih _ rfl (by simp) ?_]
    · simp
    · have h1 : e.data ++ [44, 32] ++ fieldToken f = (e.data ++ [44, 32]) ++ fieldToken f := by
        simp
      rw [h1]
      exact fieldToken_last_ok _ f 0

theorem foldl_applyField_last (fs : List (List Nat × FieldVal)) (e : Encoder)
    (hf : e.format = FormatJSON) (hne : e.data ≠ [])
    (hok : ¬(e.data.getLastD 0 = 123 ∨ e.data.getLastD 0 = 91 ∨ e.data.getLastD 0 = 58)) :
    (fs.foldl applyField e).data ≠ []
  ∧ ¬((fs.foldl applyField e).data.getLastD 0 = 123 ∨
      (fs.foldl applyField e).data.getLastD 0 = 91 ∨
      (fs.foldl applyField e).data.getLastD 0 = 58) := by
  induction fs generalizing e with
  | nil => exact ⟨hne, hok⟩
  | cons f fs ih =>
    rw [List.foldl_cons, applyField_step e f hf hne hok]
    apply ih _ rfl (by simp)
    have h1 : e.data ++ [44, 32] ++ fieldToken f = (e.data ++ [44, 32]) ++ fieldToken f := by
      simp
    rw [h1]
    exact fieldToken_last_ok _ f 0

theorem applyField_chain (e : Encoder) (d : List Nat) (f g : List Nat × FieldVal)
    (he : e = ⟨FormatJSON, d ++ fieldToken f⟩) :
    applyField e g = ⟨FormatJSON, (d ++ fieldToken f) ++ [44, 32] ++ fieldToken g⟩ := by
  subst he
  exact applyField_step _ _ rfl (by simp [fieldToken]) (fieldToken_last_ok d f 0)

theorem objString_applyField (e : Encoder) (k v : List Nat) :
    objString e k v = applyField e (k, FieldVal.vstr v) := rfl

theorem loggerEntry_active (l : Logger) (sOK : Bool) (t : GoTime) (caller : Option (List Nat))
    (lv : Nat) (msg : List Nat) (hgate : l.config.level ≤ lv)
    (hs : l.config.enableSampling = false) :
    loggerEntry l sOK t caller lv msg
      = entryString (l.withs.foldl (fun acc f => f acc)
          ⟨some (encInit ⟨l.config.format, []⟩ l.config t caller lv), lv⟩)
          l.config.messageField msg := by
  unfold loggerEntry
  rw [if_pos hgate]
  simp [hs]

theorem init_order_core (tf lf mf c : List Nat) (t : GoTime) (lv : Nat) :
    encInit ⟨FormatJSON, []⟩ (cfgInitOrder tf lf mf) t (some c) lv
      = ⟨FormatJSON, [123] ++ fieldToken (tf, FieldVal.vint t.unix)
          ++ [44, 32] ++ fieldToken (lf, FieldVal.vstr (levelString lv))
          ++ [44, 32] ++ fieldToken (callerKey, FieldVal.vstr c)⟩ := by
  unfold encInit cfgInitOrder
  simp only [if_true]
  rw [show AppendInt64 (addKey (⟨FormatJSON, []⟩ : Encoder) tf) t.unix
      = applyField ⟨FormatJSON, []⟩ (tf, FieldVal.vint t.unix) from rfl]
  rw [applyField_start, objString_applyField, objString_applyField]
  rw [applyField_chain _ [123] _ _ rfl]
  rw [applyField_chain _ ([123] ++ fieldToken (tf, FieldVal.vint t.unix) ++ [44, 32])
    (lf, FieldVal.vstr (levelString lv)) _ (by simp)]

theorem intercalate_cons_eq (sep x : List Nat) (xs : List (List Nat)) :
    List.intercalate sep (x :: xs) = x ++ (xs.map (fun t => sep ++ t)).flatten := by
  induction xs generalizing x with
  | nil => simp [List.intercalate]
  | cons y ys ih =>
    have h1 : List.intercalate sep (x :: y :: ys)
        = x ++ sep ++ List.intercalate sep (y :: ys) := by
      simp [List.intercalate]
    rw [h1, ih]
    simp

theorem entryString_some (enc : Encoder) (lv : Nat) (k v : List Nat) :
    entryString ⟨some enc, lv⟩ k v = ⟨some (applyField enc (k, FieldVal.vstr v)), lv⟩ := rfl

theorem foldl_withStringField (pairs : List (List Nat × List Nat)) (enc : Encoder) (lv : Nat) :
    (pairs.map withStringField).foldl (fun acc f => f acc) ⟨some enc, lv⟩
      = ⟨some ((pairs.map (fun p => (p.1, FieldVal.vstr p.2))).foldl applyField enc), lv⟩ := by
  induction pairs generalizing enc with
  | nil => rfl
  | cons p ps ih =>
    rw [List.map_cons, List.foldl_cons, List.map_cons, List.foldl_cons]
    exact ih _

theorem one_div_eq_ite (F : Nat) : 1 / F = if 1 % F = 0 then 1 else 0 := by
  match F with
  | 0 => rfl
  | 1 => rfl
  | (k + 2) =>
    rw [Nat.div_eq_of_lt (by omega), Nat.mod_eq_of_lt (by omega)]
    simp

theorem samplerCum_step (S F n : Nat) :
    samplerCum S F (n + 1)
      = samplerCum S F n + (if samplerAllowed S F (n + 1) = true then 1 else 0) := by
  unfold samplerCum samplerAllowed
  by_cases hA : n + 1 ≤ S
  · simp [hA, Nat.le_of_succ_le hA]
  · by_cases hB : n ≤ S
    · have hn : n = S := by omega
      subst hn
      rw [if_neg hA, if_pos (Nat.le_refl n), if_neg hA]
      have h3 : n + 1 - n = 1 := by omega
      rw [h3, one_div_eq_ite]
      simp only [decide_eq_true_eq]
    · rw [if_neg hA, if_neg hB, if_neg hA]
      simp only [decide_eq_true_eq]
      have h3 : n + 1 - S = (n - S) + 1 := by omega
      rw [h3, Nat.succ_div]
      simp only [Nat.dvd_iff_mod_eq_zero]
      split <;> omega

theorem samplerAccepted_cum (tick S F now : Nat) (ht : 0 < tick) (M : Nat) :
    ∀ k : Nat, samplerCum S F (k + M)
      = samplerCum S F k + samplerAccepted tick S F now M ⟨now, k⟩ := by
  induction M with
  | zero => intro k; simp [samplerAccepted]
  | succ m ih =>
    intro k
    have hchk : samplerCheck tick S F now ⟨now, k⟩
        = (samplerAllowed S F (k + 1), ⟨now, k + 1⟩) := by
      unfold samplerCheck
      rw [if_neg (by simp; omega)]
    have hacc : samplerAccepted tick S F now (m + 1) ⟨now, k⟩
        = (if samplerAllowed S F (k + 1) = true then 1 else 0)
          + samplerAccepted tick S F now m ⟨now, k + 1⟩ := by
      simp only [samplerAccepted, hchk]
    rw [hacc]
    have h1 : k + (m + 1) = (k + 1) + m := by omega
    rw [h1, ih (k + 1), samplerCum_step]
    omega

/-! ### Claim theorems -/

/-- Claim C1: the claim states that `writeString` emits the five special
control characters as backslash plus the LETTER n/f/b/r/t and emits `\` as
`\\`.  The code instead appends the backslash followed by the RAW control
byte (0x0A for newline), and emits `\"` for a backslash — in both format
modes. -/
theorem claim1_writeString_raw_escapes :
    (writeString ⟨FormatJSON, []⟩ [10]).data = [34, 92, 10, 34]
  ∧ (writeString ⟨FormatText, []⟩ [10]).data = [34, 92, 10, 34]
  ∧ (writeString ⟨FormatJSON, []⟩ [92]).data = [34, 92, 34, 34]
  ∧ ([34, 92, 10, 34] : List Nat) ≠ [34, 92, 110, 34]
  ∧ ([34, 92, 34, 34] : List Nat) ≠ [34, 92, 92, 34] := by
  decide

/-- Claim C2: the claimed escape/unescape round trip fails.  The token the
code emits for the one-byte string `\` is `"\""`, whose standard JSON
unescape is the one-byte string `"` — and is in fact byte-identical to the
token emitted for the input `"`, so no decoder can restore both.  The token
emitted for a newline contains a raw 0x0A after the backslash, which the
standard unescape rejects. -/
theorem claim2_roundtrip_fails :
    jsonUnescape ((writeString ⟨FormatJSON, []⟩ [92]).data) = some [34]
  ∧ (some [34] : Option (List Nat)) ≠ some [92]
  ∧ (writeString ⟨FormatJSON, []⟩ [92]).data = (writeString ⟨FormatJSON, []⟩ [34]).data
  ∧ jsonUnescape ((writeString ⟨FormatJSON, []⟩ [10]).data) = none := by
  decide

/-- Claim C3: for any sequence of N ≥ 1 field writes (`addKey` then one value
append) on a fresh JSON encoder, the finalized buffer is the brace-wrapped
intercalation of the field tokens with the two-byte `", "` separator —
exactly N−1 separators, each strictly between two tokens; and `checkComma`
emits `{` on an empty buffer, nothing when the last byte is `{`, `[` or `:`,
and `", "` otherwise. -/
theorem claim3_separator_invariant (fs : List (List Nat × FieldVal)) (h : fs ≠ []) :
    (closeObject (fs.foldl applyField ⟨FormatJSON, []⟩)).data
      = [123] ++ List.intercalate [44, 32] (fs.map fieldToken) ++ [125]
  ∧ (∀ e : Encoder, e.format = FormatJSON →
      (e.data = [] → checkComma e = { e with data := [123] })
    ∧ (e.data ≠ [] →
        ((e.data.getLastD 0 = 123 ∨ e.data.getLastD 0 = 91 ∨ e.data.getLastD 0 = 58) →
          checkComma e = e)
      ∧ (¬(e.data.getLastD 0 = 123 ∨ e.data.getLastD 0 = 91 ∨ e.data.getLastD 0 = 58) →
          checkComma e = { e with data := e.data ++ [44, 32] }))) := by
  constructor
  · match fs, h with
    | f :: fs, _ =>
      rw [List.foldl_cons, applyField_start f,
        foldl_applyField fs _ rfl (by simp) (fieldToken_last_ok [123] f 0)]
      rw [List.map_cons, intercalate_cons_eq]
      simp [closeObject, Function.comp_def]
  · intro e hf
    exact ⟨fun hd => checkComma_empty_json e hf hd,
      fun hne => ⟨checkComma_skip_json e hf hne, checkComma_sep_json e hf hne⟩⟩

/-- Witness for C3 at the single field write `"k":8`. -/
theorem claim3_separator_invariant_witness :
    (closeObject ([([107], FieldVal.vint 8)].foldl applyField ⟨FormatJSON, []⟩)).data
      = [123, 34, 107, 34, 58, 56, 125] :=
  ((claim3_separator_invariant [([107], FieldVal.vint 8)] (by decide)).1).trans (by decide)

/-- Claim C4: with sampling parameters start = S and factor = F, a burst of M
identical-signature submissions within one tick accepts M records when
M ≤ S and S + (M − S)/F records otherwise.  (Sampler modelled from the
spec; its implementation is not among the source files.) -/
theorem claim4_sampling_bound (tick S F now M : Nat) (ht : 0 < tick) :
    samplerBurst tick S F now M = if M ≤ S then M else S + (M - S) / F := by
  have h := samplerAccepted_cum tick S F now ht M 0
  rw [Nat.zero_add] at h
  have h0 : samplerCum S F 0 = 0 := by simp [samplerCum]
  have h1 : samplerAccepted tick S F now M ⟨now, 0⟩ = samplerCum S F M := by omega
  rw [samplerBurst, h1, samplerCum]

/-- Witness for C4: S = 2, F = 10, M = 22 accepts exactly 4. -/
theorem claim4_sampling_bound_witness : samplerBurst 1 2 10 0 22 = 4 :=
  (claim4_sampling_bound 1 2 10 0 22 (by decide)).trans (by decide)

/-- Claim C5 counterexample: the scenario chain finalizes with the two-byte
`", "` separator after each comma, not the compact `","` the claim states,
so the claimed byte sequence is not produced. -/
theorem claim5_counterexample :
    entryFinalize (entryInt64 (entryString
        (loggerEntry ⟨cfgScenario FormatJSON, []⟩ true ⟨0, 0, []⟩ none DEBUG [120])
        [107] [118]) [110] 8)
      = some [123, 34, 108, 101, 118, 101, 108, 34, 58, 34, 100, 101, 98, 117, 103, 34,
          44, 32, 34, 109, 101, 115, 115, 97, 103, 101, 34, 58, 34, 120, 34, 44, 32, 34,
          107, 34, 58, 34, 118, 34, 44, 32, 34, 110, 34, 58, 56, 125]
  ∧ (some [123, 34, 108, 101, 118, 101, 108, 34, 58, 34, 100, 101, 98, 117, 103, 34,
        44, 32, 34, 109, 101, 115, 115, 97, 103, 101, 34, 58, 34, 120, 34, 44, 32, 34,
        107, 34, 58, 34, 118, 34, 44, 32, 34, 110, 34, 58, 56, 125] : Option (List Nat))
      ≠ some [123, 34, 108, 101, 118, 101, 108, 34, 58, 34, 100, 101, 98, 117, 103, 34,
          44, 34, 109, 101, 115, 115, 97, 103, 101, 34, 58, 34, 120, 34, 44, 34,
          107, 34, 58, 34, 118, 34, 44, 34, 110, 34, 58, 56, 125] := by
  decide

/-- Claim C5 amended: gate level DEBUG, time and caller disabled, JSON format:
`Debug("x").String("k","v").Int64("n",8)` finalizes to exactly
`(123)"level":"debug", "message":"x", "k":"v", "n":8(125)` — the comma
separator is the two-byte `", "`. -/
theorem claim5_amended_json_scenario :
    entryFinalize (entryInt64 (entryString
        (loggerEntry ⟨cfgScenario FormatJSON, []⟩ true ⟨0, 0, []⟩ none DEBUG [120])
        [107] [118]) [110] 8)
      = some [123, 34, 108, 101, 118, 101, 108, 34, 58, 34, 100, 101, 98, 117, 103, 34,
          44, 32, 34, 109, 101, 115, 115, 97, 103, 101, 34, 58, 34, 120, 34, 44, 32, 34,
          107, 34, 58, 34, 118, 34, 44, 32, 34, 110, 34, 58, 56, 125] := by
  decide

/-- Claim C6 counterexample: in text format the level value is written through
the string appender and is therefore quoted (`level="debug"`), not bare
`level=debug` as the claim states. -/
theorem claim6_counterexample :
    entryFinalize (entryInt64 (entryString
        (loggerEntry ⟨cfgScenario FormatText, []⟩ true ⟨0, 0, []⟩ none DEBUG [120])
        [107] [118]) [110] 8)
      = some [108, 101, 118, 101, 108, 61, 34, 100, 101, 98, 117, 103, 34, 32, 109, 101,
          115, 115, 97, 103, 101, 61, 34, 120, 34, 32, 107, 61, 34, 118, 34, 32, 110, 61, 56]
  ∧ (some [108, 101, 118, 101, 108, 61, 34, 100, 101, 98, 117, 103, 34, 32, 109, 101,
        115, 115, 97, 103, 101, 61, 34, 120, 34, 32, 107, 61, 34, 118, 34, 32, 110, 61, 56]
      : Option (List Nat))
      ≠ some [108, 101, 118, 101, 108, 61, 100, 101, 98, 117, 103, 32, 109, 101,
          115, 115, 97, 103, 101, 61, 34, 120, 34, 32, 107, 61, 34, 118, 34, 32, 110, 61, 56] := by
  decide

/-- Claim C6 amended: same inputs in text format finalize to exactly
`level="debug" message="x" k="v" n=8` — key=value pairs separated by single
spaces, string values quoted including the level value, no braces. -/
theorem claim6_amended_text_scenario :
    entryFinalize (entryInt64 (entryString
        (loggerEntry ⟨cfgScenario FormatText, []⟩ true ⟨0, 0, []⟩ none DEBUG [120])
        [107] [118]) [110] 8)
      = some [108, 101, 118, 101, 108, 61, 34, 100, 101, 98, 117, 103, 34, 32, 109, 101,
          115, 115, 97, 103, 101, 61, 34, 120, 34, 32, 107, 61, 34, 118, 34, 32, 110, 61, 56] := by
  decide

/-- Claim C7 counterexample: with timestamps enabled (Unix-seconds encoding,
`time.Now().Unix() = 5`), the entry initializer writes the time field BEFORE
the level field, so a record does not start with the level field as the
claim states. -/
theorem claim7_counterexample :
    entryFinalize (loggerEntry ⟨cfgTimed, []⟩ true ⟨5, 0, []⟩ none DEBUG [120])
      = some [123, 34, 116, 105, 109, 101, 34, 58, 53, 44, 32, 34, 108, 101, 118, 101, 108,
          34, 58, 34, 100, 101, 98, 117, 103, 34, 44, 32, 34, 109, 101, 115, 115, 97, 103,
          101, 34, 58, 34, 120, 34, 125]
  ∧ (some [123, 34, 116, 105, 109, 101, 34, 58, 53, 44, 32, 34, 108, 101, 118, 101, 108,
        34, 58, 34, 100, 101, 98, 117, 103, 34, 44, 32, 34, 109, 101, 115, 115, 97, 103,
        101, 34, 58, 34, 120, 34, 125] : Option (List Nat))
      ≠ some [123, 34, 108, 101, 118, 101, 108, 34, 58, 34, 100, 101, 98, 117, 103, 34,
          44, 32, 34, 116, 105, 109, 101, 34, 58, 53, 44, 32, 34, 109, 101, 115, 115, 97,
          103, 101, 34, 58, 34, 120, 34, 125] := by
  decide

/-- Claim C7 amended: for every accepted record, initialization writes the
timestamp field first (when enabled), then the level field, then the caller
field (when enabled), then every registered "with" callback's fields in
registration order, and finally the message field. -/
theorem claim7_amended_field_order (tf lf mf msg c : List Nat)
    (pairs : List (List Nat × List Nat)) (t : GoTime) (lv : Nat) (sOK : Bool) :
    entryFinalize (loggerEntry ⟨cfgInitOrder tf lf mf, pairs.map withStringField⟩
        sOK t (some c) lv msg)
      = some ([123] ++ fieldToken (tf, FieldVal.vint t.unix)
          ++ [44, 32] ++ fieldToken (lf, FieldVal.vstr (levelString lv))
          ++ [44, 32] ++ fieldToken (callerKey, FieldVal.vstr c)
          ++ (pairs.map (fun p => [44, 32] ++ fieldToken (p.1, FieldVal.vstr p.2))).flatten
          ++ [44, 32] ++ fieldToken (mf, FieldVal.vstr msg)
          ++ [125]) := by
  rw [loggerEntry_active _ _ _ _ _ _ (Nat.zero_le lv) rfl]
  show entryFinalize (entryString ((pairs.map withStringField).foldl (fun acc f => f acc)
      ⟨some (encInit ⟨FormatJSON, []⟩ (cfgInitOrder tf lf mf) t (some c) lv), lv⟩) mf msg)
    = _
  rw [init_order_core]
  rw [foldl_withStringField]
  have hne : ([123] ++ fieldToken (tf, FieldVal.vint t.unix)
      ++ [44, 32] ++ fieldToken (lf, FieldVal.vstr (levelString lv))
      ++ [44, 32] ++ fieldToken (callerKey, FieldVal.vstr c) : List Nat) ≠ [] := by simp
  have hok : ¬(([123] ++ fieldToken (tf, FieldVal.vint t.unix)
      ++ [44, 32] ++ fieldToken (lf, FieldVal.vstr (levelString lv))
      ++ [44, 32] ++ fieldToken (callerKey, FieldVal.vstr c)).getLastD 0 = 123 ∨
      ([123] ++ fieldToken (tf, FieldVal.vint t.unix)
      ++ [44, 32] ++ fieldToken (lf, FieldVal.vstr (levelString lv))
      ++ [44, 32] ++ fieldToken (callerKey, FieldVal.vstr c)).getLastD 0 = 91 ∨
      ([123] ++ fieldToken (tf, FieldVal.vint t.unix)
      ++ [44, 32] ++ fieldToken (lf, FieldVal.vstr (levelString lv))
      ++ [44, 32] ++ fieldToken (callerKey, FieldVal.vstr c)).getLastD 0 = 58) := by
    have h1 : ([123] ++ fieldToken (tf, FieldVal.vint t.unix)
        ++ [44, 32] ++ fieldToken (lf, FieldVal.vstr (levelString lv))
        ++ [44, 32] ++ fieldToken (callerKey, FieldVal.vstr c) : List Nat)
      = ([123] ++ fieldToken (tf, FieldVal.vint t.unix)
        ++ [44, 32] ++ fieldToken (lf, FieldVal.vstr (levelString lv))
        ++ [44, 32]) ++ fieldToken (callerKey, FieldVal.vstr c) := by simp
    rw [h1]
    exact fieldToken_last_ok _ _ 0
  have hfold := foldl_applyField (pairs.map (fun p => (p.1, FieldVal.vstr p.2)))
    ⟨FormatJSON, [123] ++ fieldToken (tf, FieldVal.vint t.unix)
      ++ [44, 32] ++ fieldToken (lf, FieldVal.vstr (levelString lv))
      ++ [44, 32] ++ fieldToken (callerKey, FieldVal.vstr c)⟩ rfl hne hok
  have hlast := foldl_applyField_last (pairs.map (fun p => (p.1, FieldVal.vstr p.2)))
    ⟨FormatJSON, [123] ++ fieldToken (tf, FieldVal.vint t.unix)
      ++ [44, 32] ++ fieldToken (lf, FieldVal.vstr (levelString lv))
      ++ [44, 32] ++ fieldToken (callerKey, FieldVal.vstr c)⟩ rfl hne hok
  rw [hfold] at hlast
  rw [hfold, entryString_some, applyField_step _ _ rfl hlast.1 hlast.2]
  show some _ = _
  simp [entryFinalize, closeObject, List.map_map, Function.comp_def]

/-- Claim C8: `Error(k, nil)` writes the field `k` with the JSON null value;
`Error(k, e)` for a non-nil error writes `k` with the error message as an
escaped, quoted string token; on an inert entry the call is a no-op — in
every case the call is total and returns the entry for further chaining. -/
theorem claim8_error_field (enc : Encoder) (k m : List Nat) (lv : Nat)
    (err : Option (List Nat)) :
    entryError ⟨some enc, lv⟩ k none
      = ⟨some { addKey enc k with data := (addKey enc k).data ++ nullBytes }, lv⟩
  ∧ entryError ⟨some enc, lv⟩ k (some m)
      = ⟨some { addKey enc k with data :=
          (addKey enc k).data ++ [34] ++ (m.map escapeByte).flatten ++ [34] }, lv⟩
  ∧ entryError ⟨none, lv⟩ k err = ⟨none, lv⟩ := by
  refine ⟨?_, ?_, rfl⟩
  · show (⟨some (objNull enc k), lv⟩ : Entry) = _
    unfold objNull AppendBytes
    rw [checkComma_addKey]
  · show (⟨some (objString enc k m), lv⟩ : Entry) = _
    unfold objString AppendString writeString
    rw [checkComma_addKey]

/-- Claim C9: a record requested strictly below the gate level acquires no
encoder (the returned entry's encoder reference is absent), every subsequent
field-setter call is a no-op returning the same sentinel entry, and the
finalize path writes nothing to the sink. -/
theorem claim9_level_gate (l : Logger) (sOK : Bool) (t : GoTime)
    (caller : Option (List Nat)) (lv : Nat) (msg k v : List Nat) (i : Int) (b : Bool)
    (err : Option (List Nat)) (h : lv < l.config.level) :
    loggerEntry l sOK t caller lv msg = ⟨none, lv⟩
  ∧ entryString ⟨none, lv⟩ k v = ⟨none, lv⟩
  ∧ entryInt64 ⟨none, lv⟩ k i = ⟨none, lv⟩
  ∧ entryBool ⟨none, lv⟩ k b = ⟨none, lv⟩
  ∧ entryNull ⟨none, lv⟩ k = ⟨none, lv⟩
  ∧ entryError ⟨none, lv⟩ k err = ⟨none, lv⟩
  ∧ entryWrite ⟨none, lv⟩ = none := by
  refine ⟨?_, rfl, rfl, rfl, rfl, rfl, rfl⟩
  unfold loggerEntry
  rw [if_neg (by omega)]

/-- Witness for C9: gate level INFO, record level DEBUG. -/
theorem claim9_level_gate_witness :
    loggerEntry ⟨{ cfgScenario FormatJSON with level := INFO }, []⟩ true ⟨0, 0, []⟩
        none DEBUG [120] = ⟨none, DEBUG⟩
  ∧ entryString ⟨none, DEBUG⟩ [107] [118] = ⟨none, DEBUG⟩
  ∧ entryInt64 ⟨none, DEBUG⟩ [107] 8 = ⟨none, DEBUG⟩
  ∧ entryBool ⟨none, DEBUG⟩ [107] false = ⟨none, DEBUG⟩
  ∧ entryNull ⟨none, DEBUG⟩ [107] = ⟨none, DEBUG⟩
  ∧ entryError ⟨none, DEBUG⟩ [107] none = ⟨none, DEBUG⟩
  ∧ entryWrite ⟨none, DEBUG⟩ = none :=
  claim9_level_gate ⟨{ cfgScenario FormatJSON with level := INFO }, []⟩ true ⟨0, 0, []⟩
    none DEBUG [120] [107] [118] 8 false none (by decide)

/-- Claim C10: on an entry whose encoder reference is absent — gated out by
level or rejected by the sampler — `Bytes()` dereferences the absent encoder
(`none` models the Go nil-pointer panic: no byte slice is returned), while
the field setters remain total no-ops on the same entry. -/
theorem claim10_bytes_not_nil_safe (l : Logger) (sOK : Bool) (t : GoTime)
    (caller : Option (List Nat)) (lv : Nat) (msg k v : List Nat)
    (h : lv < l.config.level ∨ (l.config.enableSampling = true ∧ sOK = false)) :
    entryBytes (loggerEntry l sOK t caller lv msg) = none
  ∧ entryString (loggerEntry l sOK t caller lv msg) k v = loggerEntry l sOK t caller lv msg := by
  have henc : loggerEntry l sOK t caller lv msg = ⟨none, lv⟩ := by
    unfold loggerEntry
    rcases h with h | ⟨h1, h2⟩
    · rw [if_neg (by omega)]
    · by_cases hg : l.config.level ≤ lv
      · rw [if_pos hg, if_pos (by rw [h1, h2]; rfl)]
      · rw [if_neg hg]
  rw [henc]
  exact ⟨rfl, rfl⟩

/-- Witness for C10: sampling enabled and the sampler rejecting an
ERROR-level record above the gate. -/
theorem claim10_bytes_not_nil_safe_witness :
    entryBytes (loggerEntry ⟨{ cfgScenario FormatJSON with enableSampling := true }, []⟩
        false ⟨0, 0, []⟩ none ERROR [120]) = none
  ∧ entryString (loggerEntry ⟨{ cfgScenario FormatJSON with enableSampling := true }, []⟩
        false ⟨0, 0, []⟩ none ERROR [120]) [107] [118]
      = loggerEntry ⟨{ cfgScenario FormatJSON with enableSampling := true }, []⟩
        false ⟨0, 0, []⟩ none ERROR [120] :=
  claim10_bytes_not_nil_safe ⟨{ cfgScenario FormatJSON with enableSampling := true }, []⟩
    false ⟨0, 0, []⟩ none ERROR [120] [107] [118] (Or.inr ⟨rfl, rfl⟩)

end Log
